import Mathlib

/-!
Shallow embedding of the `audio-channel-buffer` crate (planar multi-channel
audio sample storage) and proofs about its specification.

Modelling conventions:
* A Rust slice / `Vec` of samples is a `List T`; `T: Default` becomes
  `[Inhabited T]` with `default`.
* The cached pointer offset tables (`[*const T; CHANNELS]`,
  `ArrayVec<*mut T, MAX_CHANNELS>`, ...) are modelled as lists of start
  indices into the flat `data` list: the pointer `data.as_ptr().add(k)`
  is the index `k`.
* `core::slice::from_raw_parts(base.add(start), len)` over the flat data
  becomes `sliceOf data start len`.
* A fallible operation (a `usize` subtraction that can overflow and panic,
  an assert, an `unwrap`) is modelled with `Option`: `none` is the
  panic / undefined-behaviour outcome.
* Mutating methods (`clear`, `clear_frames`, writes through
  `channel_mut`) are modelled as functions returning the updated buffer
  value.
-/

namespace AudioChannelBuffer

/-- Elements `[start, start + len)` of the flat data: models
`core::slice::from_raw_parts(data_ptr.add(start), len)` (index-based). -/
def sliceOf {T : Type} (data : List T) (start len : Nat) : List T :=
  (data.drop start).take len

/-- Helper for `fillRange`: walks the list carrying the current absolute
position `p`, replacing elements whose position lies in `[start, start + len)`
with `v`. -/
def fillFrom {T : Type} (v : T) (start len : Nat) : Nat → List T → List T
  | _, [] => []
  | p, x :: xs =>
      (if start ≤ p ∧ p < start + len then v else x) :: fillFrom v start len (p + 1) xs

/-- Models `slice[start .. start+len].fill(v)` on the flat data: every element
at a position in `[start, start + len)` becomes `v`, the rest are unchanged. -/
def fillRange {T : Type} (data : List T) (start len : Nat) (v : T) : List T :=
  fillFrom v start len 0 data

/-- Helper for `overwriteRange`: walks the list carrying the current absolute
position `p`, replacing the element at position `p ∈ [off, off + len)` with
`xs[p - off]`. -/
def overwriteFrom {T : Type} (xs : List T) (off len : Nat) : Nat → List T → List T
  | _, [] => []
  | p, y :: ys =>
      (if off ≤ p ∧ p < off + len then xs.getD (p - off) y else y)
        :: overwriteFrom xs off len (p + 1) ys

/-- Models writing the samples `xs` through a mutable channel slice
(`channel_mut(i)` followed by `copy_from_slice`): positions
`[off, off + len)` of the flat data receive `xs[0], xs[1], ...`. -/
def overwriteRange {T : Type} (data : List T) (off len : Nat) (xs : List T) : List T :=
  overwriteFrom xs off len 0 data

/-- Subtraction of `usize` values: `none` models the overflow panic (debug)
or wrap-around (release) when the subtrahend exceeds the minuend. -/
def usizeSub (a b : Nat) : Option Nat :=
  if b ≤ a then some (a - b) else none

/-- Membership of position `k` in channel `i`'s index range
`[i * frames, i * frames + frames)` of the flat region. -/
def chanRange (frames i k : Nat) : Prop :=
  i * frames ≤ k ∧ k < i * frames + frames

instance (frames i k : Nat) : Decidable (chanRange frames i k) := by
  unfold chanRange; infer_instance

/-! ## `ChannelBufferRef` (src/const_buffer_ref.rs)

Immutable borrowed buffer with a compile-time channel count `CHANNELS`. -/

structure ChannelBufferRef (T : Type) (CHANNELS : Nat) where
  data : List T
  offsets : List Nat
  frames : Nat

namespace ChannelBufferRef

/-- `ChannelBufferRef::new(data)`: `frames = data.len() / CHANNELS`, offset
table entry `ch_i` is `data.as_ptr().add(ch_i * frames)`. -/
def new {T : Type} (CHANNELS : Nat) (data : List T) : ChannelBufferRef T CHANNELS :=
  let frames := data.length / CHANNELS
  { data := data
    offsets := (List.range CHANNELS).map (fun ch_i => ch_i * frames)
    frames := frames }

/-- `ChannelBufferRef::channels`. -/
def channels {T : Type} {CHANNELS : Nat} (_ : ChannelBufferRef T CHANNELS) : Nat :=
  CHANNELS

/-- `ChannelBufferRef::channel_unchecked(index)`:
`from_raw_parts(offsets[index], frames)`. -/
def channel_unchecked {T : Type} {CHANNELS : Nat} (b : ChannelBufferRef T CHANNELS)
    (index : Nat) : List T :=
  sliceOf b.data (b.offsets.getD index 0) b.frames

/-- `ChannelBufferRef::channel(index)`: bounds-checked channel access. -/
def channel {T : Type} {CHANNELS : Nat} (b : ChannelBufferRef T CHANNELS)
    (index : Nat) : Option (List T) :=
  if index < CHANNELS then some (b.channel_unchecked index) else none

/-- `ChannelBufferRef::as_slices`: one `frames`-length slice per channel,
read from the cached offset table. -/
def as_slices {T : Type} {CHANNELS : Nat} (b : ChannelBufferRef T CHANNELS) :
    List (List T) :=
  (List.range CHANNELS).map (fun ch_i => sliceOf b.data (b.offsets.getD ch_i 0) b.frames)

/-- `ChannelBufferRef::as_slices_with_length(frames)`: the requested length is
clamped to `self.frames`. -/
def as_slices_with_length {T : Type} {CHANNELS : Nat} (b : ChannelBufferRef T CHANNELS)
    (frames : Nat) : List (List T) :=
  let f := min frames b.frames
  (List.range CHANNELS).map (fun ch_i => sliceOf b.data (b.offsets.getD ch_i 0) f)

/-- `ChannelBufferRef::as_slices_with_range(range)`: `start_frame` and the
range end are clamped to `self.frames`; the slice length is the `usize`
difference `range.end.min(frames) - start_frame`, whose overflow (possible
when `range.start > range.end`) is modelled by `none`. -/
def as_slices_with_range {T : Type} {CHANNELS : Nat} (b : ChannelBufferRef T CHANNELS)
    (start stop : Nat) : Option (List (List T)) :=
  let start_frame := min start b.frames
  match usizeSub (min stop b.frames) start_frame with
  | none => none
  | some f =>
      some ((List.range CHANNELS).map
        (fun ch_i => sliceOf b.data (b.offsets.getD ch_i 0 + start_frame) f))

/-- `ChannelBufferRef::raw`: the entire backing slice. -/
def raw {T : Type} {CHANNELS : Nat} (b : ChannelBufferRef T CHANNELS) : List T :=
  b.data

/-- `Index<usize> for ChannelBufferRef`: `self.channel(index).unwrap()`; the
panic of `unwrap` on `None` is modelled by the `none` outcome. -/
def indexOp {T : Type} {CHANNELS : Nat} (b : ChannelBufferRef T CHANNELS)
    (index : Nat) : Option (List T) :=
  b.channel index

end ChannelBufferRef

/-! ## `ChannelBufferRefMut` (src/const_buffer_ref.rs)

Mutable borrowed buffer with a compile-time channel count `CHANNELS`. -/

structure ChannelBufferRefMut (T : Type) (CHANNELS : Nat) where
  data : List T
  offsets : List Nat
  frames : Nat

namespace ChannelBufferRefMut

/-- `ChannelBufferRefMut::new(data)`: `frames = data.len() / CHANNELS`, offset
table entry `ch_i` is `data.as_mut_ptr().add(ch_i * frames)`. -/
def new {T : Type} (CHANNELS : Nat) (data : List T) : ChannelBufferRefMut T CHANNELS :=
  let frames := data.length / CHANNELS
  { data := data
    offsets := (List.range CHANNELS).map (fun ch_i => ch_i * frames)
    frames := frames }

/-- `ChannelBufferRefMut::channels`. -/
def channels {T : Type} {CHANNELS : Nat} (_ : ChannelBufferRefMut T CHANNELS) : Nat :=
  CHANNELS

/-- `ChannelBufferRefMut::channel_unchecked(index)`. -/
def channel_unchecked {T : Type} {CHANNELS : Nat} (b : ChannelBufferRefMut T CHANNELS)
    (index : Nat) : List T :=
  sliceOf b.data (b.offsets.getD index 0) b.frames

/-- `ChannelBufferRefMut::channel(index)`: bounds-checked channel access. -/
def channel {T : Type} {CHANNELS : Nat} (b : ChannelBufferRefMut T CHANNELS)
    (index : Nat) : Option (List T) :=
  if index < CHANNELS then some (b.channel_unchecked index) else none

/-- `ChannelBufferRefMut::channel_mut(index)`: bounds-checked mutable channel
access; the returned view reads the same `[offsets[index], offsets[index] +
frames)` region. -/
def channel_mut {T : Type} {CHANNELS : Nat} (b : ChannelBufferRefMut T CHANNELS)
    (index : Nat) : Option (List T) :=
  if index < CHANNELS then some (b.channel_unchecked index) else none

/-- `ChannelBufferRefMut::as_slices`. -/
def as_slices {T : Type} {CHANNELS : Nat} (b : ChannelBufferRefMut T CHANNELS) :
    List (List T) :=
  (List.range CHANNELS).map (fun ch_i => sliceOf b.data (b.offsets.getD ch_i 0) b.frames)

/-- `ChannelBufferRefMut::as_mut_slices`: one mutable `frames`-length slice per
channel, read from the cached offset table. -/
def as_mut_slices {T : Type} {CHANNELS : Nat} (b : ChannelBufferRefMut T CHANNELS) :
    List (List T) :=
  (List.range CHANNELS).map (fun ch_i => sliceOf b.data (b.offsets.getD ch_i 0) b.frames)

/-- `ChannelBufferRefMut::as_slices_with_length(frames)`. -/
def as_slices_with_length {T : Type} {CHANNELS : Nat} (b : ChannelBufferRefMut T CHANNELS)
    (frames : Nat) : List (List T) :=
  let f := min frames b.frames
  (List.range CHANNELS).map (fun ch_i => sliceOf b.data (b.offsets.getD ch_i 0) f)

/-- `ChannelBufferRefMut::as_mut_slices_with_length(frames)`. -/
def as_mut_slices_with_length {T : Type} {CHANNELS : Nat}
    (b : ChannelBufferRefMut T CHANNELS) (frames : Nat) : List (List T) :=
  let f := min frames b.frames
  (List.range CHANNELS).map (fun ch_i => sliceOf b.data (b.offsets.getD ch_i 0) f)

/-- `ChannelBufferRefMut::as_slices_with_range(range)`; the `usize` overflow of
`range.end.min(frames) - start_frame` is modelled by `none`. -/
def as_slices_with_range {T : Type} {CHANNELS : Nat} (b : ChannelBufferRefMut T CHANNELS)
    (start stop : Nat) : Option (List (List T)) :=
  let start_frame := min start b.frames
  match usizeSub (min stop b.frames) start_frame with
  | none => none
  | some f =>
      some ((List.range CHANNELS).map
        (fun ch_i => sliceOf b.data (b.offsets.getD ch_i 0 + start_frame) f))

/-- `ChannelBufferRefMut::raw`. -/
def raw {T : Type} {CHANNELS : Nat} (b : ChannelBufferRefMut T CHANNELS) : List T :=
  b.data

/-- `ChannelBufferRefMut::clear`: `raw_mut().fill(T::default())`. -/
def clear {T : Type} [Inhabited T] {CHANNELS : Nat}
    (b : ChannelBufferRefMut T CHANNELS) : ChannelBufferRefMut T CHANNELS :=
  { b with data := b.data.map (fun _ => default) }

/-- `ChannelBufferRefMut::clear_frames(frames)`: each channel slice of
`as_mut_slices_with_length(frames)` (length clamped to `self.frames`) is
filled with the default value. -/
def clear_frames {T : Type} [Inhabited T] {CHANNELS : Nat}
    (b : ChannelBufferRefMut T CHANNELS) (frames : Nat) : ChannelBufferRefMut T CHANNELS :=
  let f := min frames b.frames
  { b with data := b.offsets.foldl (fun d off => fillRange d off f default) b.data }

/-- Writing `xs` through `channel_mut(i)` (`copy_from_slice`-style): the
channel's index range receives `xs`, clamped to the channel length. -/
def writeChannel {T : Type} {CHANNELS : Nat} (b : ChannelBufferRefMut T CHANNELS)
    (i : Nat) (xs : List T) : ChannelBufferRefMut T CHANNELS :=
  { b with data := overwriteRange b.data (b.offsets.getD i 0) (min xs.length b.frames) xs }

/-- `Index<usize> for ChannelBufferRefMut`: `self.channel(index).unwrap()`;
the panic of `unwrap` on `None` is modelled by the `none` outcome. -/
def indexOp {T : Type} {CHANNELS : Nat} (b : ChannelBufferRefMut T CHANNELS)
    (index : Nat) : Option (List T) :=
  b.channel index

end ChannelBufferRefMut

/-! ## `ChannelBuffer` (src/const_buffer.rs)

Owned buffer with a compile-time channel count `CHANNELS`. -/

structure ChannelBuffer (T : Type) (CHANNELS : Nat) where
  data : List T
  offsets : List Nat
  frames : Nat

namespace ChannelBuffer

/-- `ChannelBuffer::new(frames)`: allocates `CHANNELS * frames` elements, all
default-initialized (`resize(buffer_len, Default::default())`), with offset
table entry `ch_i` at `ch_i * frames`. -/
def new {T : Type} [Inhabited T] (CHANNELS : Nat) (frames : Nat) : ChannelBuffer T CHANNELS :=
  { data := List.replicate (CHANNELS * frames) default
    offsets := (List.range CHANNELS).map (fun ch_i => ch_i * frames)
    frames := frames }

/-- `ChannelBuffer::channels`. -/
def channels {T : Type} {CHANNELS : Nat} (_ : ChannelBuffer T CHANNELS) : Nat :=
  CHANNELS

/-- `ChannelBuffer::channel_unchecked(index)`. -/
def channel_unchecked {T : Type} {CHANNELS : Nat} (b : ChannelBuffer T CHANNELS)
    (index : Nat) : List T :=
  sliceOf b.data (b.offsets.getD index 0) b.frames

/-- `ChannelBuffer::channel(index)`: bounds-checked channel access. -/
def channel {T : Type} {CHANNELS : Nat} (b : ChannelBuffer T CHANNELS)
    (index : Nat) : Option (List T) :=
  if index < CHANNELS then some (b.channel_unchecked index) else none

/-- `ChannelBuffer::channel_mut(index)`: bounds-checked mutable channel
access; the returned view reads the same region. -/
def channel_mut {T : Type} {CHANNELS : Nat} (b : ChannelBuffer T CHANNELS)
    (index : Nat) : Option (List T) :=
  if index < CHANNELS then some (b.channel_unchecked index) else none

/-- `ChannelBuffer::as_slices`. -/
def as_slices {T : Type} {CHANNELS : Nat} (b : ChannelBuffer T CHANNELS) :
    List (List T) :=
  (List.range CHANNELS).map (fun ch_i => sliceOf b.data (b.offsets.getD ch_i 0) b.frames)

/-- `ChannelBuffer::as_mut_slices`. -/
def as_mut_slices {T : Type} {CHANNELS : Nat} (b : ChannelBuffer T CHANNELS) :
    List (List T) :=
  (List.range CHANNELS).map (fun ch_i => sliceOf b.data (b.offsets.getD ch_i 0) b.frames)

/-- `ChannelBuffer::as_slices_with_length(frames)`. -/
def as_slices_with_length {T : Type} {CHANNELS : Nat} (b : ChannelBuffer T CHANNELS)
    (frames : Nat) : List (List T) :=
  let f := min frames b.frames
  (List.range CHANNELS).map (fun ch_i => sliceOf b.data (b.offsets.getD ch_i 0) f)

/-- `ChannelBuffer::as_mut_slices_with_length(frames)`. -/
def as_mut_slices_with_length {T : Type} {CHANNELS : Nat} (b : ChannelBuffer T CHANNELS)
    (frames : Nat) : List (List T) :=
  let f := min frames b.frames
  (List.range CHANNELS).map (fun ch_i => sliceOf b.data (b.offsets.getD ch_i 0) f)

/-- `ChannelBuffer::as_slices_with_range(range)`; the `usize` overflow of
`range.end.min(frames) - start_frame` is modelled by `none`. -/
def as_slices_with_range {T : Type} {CHANNELS : Nat} (b : ChannelBuffer T CHANNELS)
    (start stop : Nat) : Option (List (List T)) :=
  let start_frame := min start b.frames
  match usizeSub (min stop b.frames) start_frame with
  | none => none
  | some f =>
      some ((List.range CHANNELS).map
        (fun ch_i => sliceOf b.data (b.offsets.getD ch_i 0 + start_frame) f))

/-- `ChannelBuffer::raw`. -/
def raw {T : Type} {CHANNELS : Nat} (b : ChannelBuffer T CHANNELS) : List T :=
  b.data

/-- `ChannelBuffer::clear`: `raw_mut().fill(T::default())`. -/
def clear {T : Type} [Inhabited T] {CHANNELS : Nat}
    (b : ChannelBuffer T CHANNELS) : ChannelBuffer T CHANNELS :=
  { b with data := b.data.map (fun _ => default) }

/-- `ChannelBuffer::clear_frames(frames)`: each channel slice of
`as_mut_slices_with_length(frames)` is filled with the default value. -/
def clear_frames {T : Type} [Inhabited T] {CHANNELS : Nat}
    (b : ChannelBuffer T CHANNELS) (frames : Nat) : ChannelBuffer T CHANNELS :=
  let f := min frames b.frames
  { b with data := b.offsets.foldl (fun d off => fillRange d off f default) b.data }

/-- Writing `xs` through `channel_mut(i)` (`copy_from_slice`-style): the
channel's index range receives `xs`, clamped to the channel length. -/
def writeChannel {T : Type} {CHANNELS : Nat} (b : ChannelBuffer T CHANNELS)
    (i : Nat) (xs : List T) : ChannelBuffer T CHANNELS :=
  { b with data := overwriteRange b.data (b.offsets.getD i 0) (min xs.length b.frames) xs }

/-- `Index<usize> for ChannelBuffer`: `self.channel(index).unwrap()`; the
panic of `unwrap` on `None` is modelled by the `none` outcome. -/
def indexOp {T : Type} {CHANNELS : Nat} (b : ChannelBuffer T CHANNELS)
    (index : Nat) : Option (List T) :=
  b.channel index

end ChannelBuffer

/-! ## `VarChannelBuffer` (src/var_buffer.rs)

Owned buffer with a runtime channel count bounded by `MAX_CHANNELS`. -/

structure VarChannelBuffer (T : Type) (MAX_CHANNELS : Nat) where
  data : List T
  offsets : List Nat
  frames : Nat

namespace VarChannelBuffer

/-- `VarChannelBuffer::new(channels, frames)`: asserts
`channels <= MAX_CHANNELS` (`none` models the panic), allocates
`channels * frames` default-initialized elements, and pushes one offset
`ch_i * frames` per channel. (`channels` is a `NonZeroUsize` in the source;
theorems carry `0 < channels` as a hypothesis.) -/
def new {T : Type} [Inhabited T] (MAX_CHANNELS : Nat) (channels frames : Nat) :
    Option (VarChannelBuffer T MAX_CHANNELS) :=
  if channels ≤ MAX_CHANNELS then
    some
      { data := List.replicate (channels * frames) default
        offsets := (List.range channels).map (fun ch_i => ch_i * frames)
        frames := frames }
  else none

/-- `VarChannelBuffer::channels`: the length of the offset table. -/
def channels {T : Type} {MAX_CHANNELS : Nat} (b : VarChannelBuffer T MAX_CHANNELS) : Nat :=
  b.offsets.length

/-- `VarChannelBuffer::channel_unchecked(index)`. -/
def channel_unchecked {T : Type} {MAX_CHANNELS : Nat} (b : VarChannelBuffer T MAX_CHANNELS)
    (index : Nat) : List T :=
  sliceOf b.data (b.offsets.getD index 0) b.frames

/-- `VarChannelBuffer::channel(index)`: checked against `offsets.len()`. -/
def channel {T : Type} {MAX_CHANNELS : Nat} (b : VarChannelBuffer T MAX_CHANNELS)
    (index : Nat) : Option (List T) :=
  if index < b.offsets.length then some (b.channel_unchecked index) else none

/-- `VarChannelBuffer::channel_mut(index)`: checked against `offsets.len()`. -/
def channel_mut {T : Type} {MAX_CHANNELS : Nat} (b : VarChannelBuffer T MAX_CHANNELS)
    (index : Nat) : Option (List T) :=
  if index < b.offsets.length then some (b.channel_unchecked index) else none

/-- `VarChannelBuffer::as_slices`: one slice per entry of the offset table. -/
def as_slices {T : Type} {MAX_CHANNELS : Nat} (b : VarChannelBuffer T MAX_CHANNELS) :
    List (List T) :=
  b.offsets.map (fun off => sliceOf b.data off b.frames)

/-- `VarChannelBuffer::as_mut_slices`: one mutable slice per entry of the
offset table. -/
def as_mut_slices {T : Type} {MAX_CHANNELS : Nat} (b : VarChannelBuffer T MAX_CHANNELS) :
    List (List T) :=
  b.offsets.map (fun off => sliceOf b.data off b.frames)

/-- `VarChannelBuffer::as_slices_with_length(frames)`. -/
def as_slices_with_length {T : Type} {MAX_CHANNELS : Nat}
    (b : VarChannelBuffer T MAX_CHANNELS) (frames : Nat) : List (List T) :=
  let f := min frames b.frames
  b.offsets.map (fun off => sliceOf b.data off f)

/-- `VarChannelBuffer::as_mut_slices_with_length(frames)`. -/
def as_mut_slices_with_length {T : Type} {MAX_CHANNELS : Nat}
    (b : VarChannelBuffer T MAX_CHANNELS) (frames : Nat) : List (List T) :=
  let f := min frames b.frames
  b.offsets.map (fun off => sliceOf b.data off f)

/-- `VarChannelBuffer::as_slices_with_range(range)`; the `usize` overflow of
`range.end.min(frames) - start_frame` is modelled by `none`. -/
def as_slices_with_range {T : Type} {MAX_CHANNELS : Nat}
    (b : VarChannelBuffer T MAX_CHANNELS) (start stop : Nat) : Option (List (List T)) :=
  let start_frame := min start b.frames
  match usizeSub (min stop b.frames) start_frame with
  | none => none
  | some f => some (b.offsets.map (fun off => sliceOf b.data (off + start_frame) f))

/-- `VarChannelBuffer::raw`. -/
def raw {T : Type} {MAX_CHANNELS : Nat} (b : VarChannelBuffer T MAX_CHANNELS) : List T :=
  b.data

/-- `VarChannelBuffer::clear`: `raw_mut().fill(T::default())`. -/
def clear {T : Type} [Inhabited T] {MAX_CHANNELS : Nat}
    (b : VarChannelBuffer T MAX_CHANNELS) : VarChannelBuffer T MAX_CHANNELS :=
  { b with data := b.data.map (fun _ => default) }

/-- `VarChannelBuffer::clear_frames(frames)`: each channel slice of
`as_mut_slices_with_length(frames)` is filled with the default value. -/
def clear_frames {T : Type} [Inhabited T] {MAX_CHANNELS : Nat}
    (b : VarChannelBuffer T MAX_CHANNELS) (frames : Nat) : VarChannelBuffer T MAX_CHANNELS :=
  let f := min frames b.frames
  { b with data := b.offsets.foldl (fun d off => fillRange d off f default) b.data }

/-- `Index<usize> for VarChannelBuffer`: `self.channel(index).unwrap()`; the
panic of `unwrap` on `None` is modelled by the `none` outcome. -/
def indexOp {T : Type} {MAX_CHANNELS : Nat} (b : VarChannelBuffer T MAX_CHANNELS)
    (index : Nat) : Option (List T) :=
  b.channel index

/-- Modelled from the spec: `set_num_channels(n)` is absent from the provided
sources (spec section 4.4 describes it). If `n` equals the current channel
count it is a no-op; otherwise it is rejected (`none` models the fatal
failure) for `n = 0` or `n > MAX_CHANNELS`, and otherwise resizes the flat
region to `n * frames` (`Vec::resize` semantics: truncate on shrink,
append default-valued elements on grow) and recomputes the offset table for
exactly `n` entries. -/
def set_num_channels {T : Type} [Inhabited T] {MAX_CHANNELS : Nat}
    (b : VarChannelBuffer T MAX_CHANNELS) (n : Nat) :
    Option (VarChannelBuffer T MAX_CHANNELS) :=
  if n = b.offsets.length then some b
  else if 1 ≤ n ∧ n ≤ MAX_CHANNELS then
    some
      { data := b.data.take (n * b.frames)
          ++ List.replicate (n * b.frames - b.data.length) default
        offsets := (List.range n).map (fun ch_i => ch_i * b.frames)
        frames := b.frames }
  else none

end VarChannelBuffer

/-! ## `InstanceChannelBuffer` (src/instance_buffer.rs)

Owned buffer stacking `INSTANCES` fixed-channel blocks in one allocation. -/

structure InstanceChannelBuffer (T : Type) (INSTANCES CHANNELS : Nat) where
  data : List T
  offsets : List (List Nat)
  frames : Nat
  instance_length : Nat

namespace InstanceChannelBuffer

/-- `InstanceChannelBuffer::new(num_instances, frames)`:
`instance_length = frames * CHANNELS`, allocates
`instance_length * num_instances` default-initialized elements, and builds
the fixed `INSTANCES x CHANNELS` offset table with entry
`(inst_i, ch_i)` at `instance_length * inst_i + frames * ch_i`. -/
def new {T : Type} [Inhabited T] (INSTANCES CHANNELS : Nat)
    (num_instances frames : Nat) : InstanceChannelBuffer T INSTANCES CHANNELS :=
  let instance_length := frames * CHANNELS
  { data := List.replicate (instance_length * num_instances) default
    offsets := (List.range INSTANCES).map
      (fun inst_i => (List.range CHANNELS).map
        (fun ch_i => instance_length * inst_i + frames * ch_i))
    frames := frames
    instance_length := instance_length }

/-- `InstanceChannelBuffer::num_instances`: the length of the offset table
(the fixed array `[[*mut T; CHANNELS]; INSTANCES]`, so always `INSTANCES`). -/
def num_instances {T : Type} {INSTANCES CHANNELS : Nat}
    (b : InstanceChannelBuffer T INSTANCES CHANNELS) : Nat :=
  b.offsets.length

/-- `InstanceChannelBuffer::instance_unchecked(index)`: builds a
`ChannelBufferRef` from the data slice starting at `offsets[index][0]` of
length `instance_length` together with the row `offsets[index]` of the cached
table; the absolute offsets are re-based onto the sub-slice (the pointer
`offsets[index][ch]` is `offsets[index][0] + frames * ch`, so the index into
the sub-slice is the difference). -/
def instance_unchecked {T : Type} {INSTANCES CHANNELS : Nat}
    (b : InstanceChannelBuffer T INSTANCES CHANNELS) (index : Nat) :
    ChannelBufferRef T CHANNELS :=
  let row := b.offsets.getD index []
  let base := row.getD 0 0
  { data := sliceOf b.data base b.instance_length
    offsets := row.map (fun off => off - base)
    frames := b.frames }

/-- `InstanceChannelBuffer::instance(index)` (named `instanceAt` because
`instance` is reserved in Lean): returns `None` when
`index >= self.num_instances()`. -/
def instanceAt {T : Type} {INSTANCES CHANNELS : Nat}
    (b : InstanceChannelBuffer T INSTANCES CHANNELS) (index : Nat) :
    Option (ChannelBufferRef T CHANNELS) :=
  if index < b.num_instances then some (b.instance_unchecked index) else none

/-- `InstanceChannelBuffer::raw`. -/
def raw {T : Type} {INSTANCES CHANNELS : Nat}
    (b : InstanceChannelBuffer T INSTANCES CHANNELS) : List T :=
  b.data

/-- `InstanceChannelBuffer::clear`: `raw_mut().fill(T::default())`. -/
def clear {T : Type} [Inhabited T] {INSTANCES CHANNELS : Nat}
    (b : InstanceChannelBuffer T INSTANCES CHANNELS) :
    InstanceChannelBuffer T INSTANCES CHANNELS :=
  { b with data := b.data.map (fun _ => default) }

/-- Modelled from the spec: `set_num_instances(n)` is absent from the provided
sources (spec section 4.5 describes it). If `n` equals the current instance
count it is a no-op; otherwise it resizes the region to
`n * instance_length`, preserving existing block contents up to
`min(old_instances, n)`, default-initializing newly added blocks, and
recomputes the offset table for exactly `n` entries. -/
def set_num_instances {T : Type} [Inhabited T] {INSTANCES CHANNELS : Nat}
    (b : InstanceChannelBuffer T INSTANCES CHANNELS) (n : Nat) :
    InstanceChannelBuffer T INSTANCES CHANNELS :=
  if n = b.offsets.length then b
  else
    { data := b.data.take (n * b.instance_length)
        ++ List.replicate (n * b.instance_length - b.data.length) default
      offsets := (List.range n).map
        (fun inst_i => (List.range CHANNELS).map
          (fun ch_i => b.instance_length * inst_i + b.frames * ch_i))
      frames := b.frames
      instance_length := b.instance_length }

end InstanceChannelBuffer

/-! ## Helper lemmas -/

theorem length_sliceOf {T : Type} (d : List T) (s l : Nat) :
    (sliceOf d s l).length = min l (d.length - s) := by
  simp [sliceOf]

theorem getElem?_sliceOf {T : Type} (d : List T) (s l p : Nat) :
    (sliceOf d s l)[p]? = if p < l then d[s + p]? else none := by
  simp [sliceOf, List.getElem?_take, List.getElem?_drop]

theorem length_sliceOf_of_le {T : Type} {d : List T} {s l : Nat}
    (h : s + l ≤ d.length) : (sliceOf d s l).length = l := by
  rw [length_sliceOf]; omega

theorem length_fillFrom {T : Type} (v : T) (s l : Nat) :
    ∀ (p : Nat) (d : List T), (fillFrom v s l p d).length = d.length := by
  intro p d
  induction d generalizing p with
  | nil => rfl
  | cons x xs ih => simp [fillFrom, ih]

theorem getElem?_fillFrom {T : Type} (v : T) (s l : Nat) :
    ∀ (p q : Nat) (d : List T),
      (fillFrom v s l p d)[q]? =
        if s ≤ p + q ∧ p + q < s + l then (if q < d.length then some v else none)
        else d[q]? := by
  intro p q d
  induction d generalizing p q with
  | nil => simp [fillFrom]
  | cons x xs ih =>
      cases q with
      | zero =>
          simp only [fillFrom, List.getElem?_cons_zero, Nat.add_zero, List.length_cons,
            Nat.zero_lt_succ, if_true]
          split <;> rfl
      | succ q =>
          have h := ih (p + 1) q
          simp only [fillFrom, List.getElem?_cons_succ, h, List.length_cons]
          have harith : p + 1 + q = p + (q + 1) := by omega
          rw [harith]
          by_cases hc : s ≤ p + (q + 1) ∧ p + (q + 1) < s + l
          · simp only [if_pos hc]
            by_cases hq : q < xs.length
            · rw [if_pos hq, if_pos (by omega)]
            · rw [if_neg hq, if_neg (by omega)]
          · simp only [if_neg hc]

theorem length_fillRange {T : Type} (d : List T) (s l : Nat) (v : T) :
    (fillRange d s l v).length = d.length :=
  length_fillFrom v s l 0 d

theorem getElem?_fillRange {T : Type} (d : List T) (s l : Nat) (v : T) (q : Nat) :
    (fillRange d s l v)[q]? =
      if s ≤ q ∧ q < s + l then (if q < d.length then some v else none)
      else d[q]? := by
  have h := getElem?_fillFrom v s l 0 q d
  simpa [fillRange] using h

theorem length_foldl_fillRange {T : Type} (l : Nat) (v : T) :
    ∀ (offs : List Nat) (d : List T),
      (offs.foldl (fun d off => fillRange d off l v) d).length = d.length := by
  intro offs d
  induction offs generalizing d with
  | nil => rfl
  | cons o os ih => simp [ih, length_fillRange]

theorem getElem?_foldl_fillRange {T : Type} (l : Nat) (v : T) :
    ∀ (offs : List Nat) (d : List T) (p : Nat),
      (offs.foldl (fun d off => fillRange d off l v) d)[p]? =
        if ∃ off ∈ offs, off ≤ p ∧ p < off + l then
          (if p < d.length then some v else none)
        else d[p]? := by
  intro offs d p
  induction offs generalizing d with
  | nil => simp
  | cons o os ih =>
      rw [List.foldl_cons, ih, length_fillRange, getElem?_fillRange]
      have hcons : (∃ off ∈ o :: os, off ≤ p ∧ p < off + l) ↔
          ((o ≤ p ∧ p < o + l) ∨ ∃ off ∈ os, off ≤ p ∧ p < off + l) := by
        constructor
        · rintro ⟨off, hmem, hP⟩
          rcases List.mem_cons.mp hmem with rfl | hmem2
          · exact Or.inl hP
          · exact Or.inr ⟨off, hmem2, hP⟩
        · rintro (h | ⟨off, hmem, hP⟩)
          · exact ⟨o, List.mem_cons_self o os, h⟩
          · exact ⟨off, List.mem_cons_of_mem o hmem, hP⟩
      by_cases htail : ∃ off ∈ os, off ≤ p ∧ p < off + l
      · rw [if_pos htail, if_pos (hcons.mpr (Or.inr htail))]
      · rw [if_neg htail]
        by_cases hhead : o ≤ p ∧ p < o + l
        · rw [if_pos hhead, if_pos (hcons.mpr (Or.inl hhead))]
        · rw [if_neg hhead, if_neg (fun h => (hcons.mp h).elim hhead htail)]

theorem getD_range_map_mul {c f i : Nat} (hi : i < c) :
    ((List.range c).map (fun ch_i => ch_i * f)).getD i 0 = i * f := by
  rw [List.getD_eq_getElem?_getD]
  rw [List.getElem?_map, List.getElem?_range hi]
  rfl

theorem chanRange_disjoint {f i j k : Nat} (hij : i ≠ j) :
    ¬(chanRange f i k ∧ chanRange f j k) := by
  rintro ⟨⟨hi1, hi2⟩, ⟨hj1, hj2⟩⟩
  rcases Nat.lt_or_ge i j with h | h
  · have : i * f + f ≤ j * f := by
      have := Nat.mul_le_mul_right f (Nat.succ_le_of_lt h)
      simpa [Nat.succ_mul] using this
    omega
  · have hji : j < i := Nat.lt_of_le_of_ne h (fun e => hij e.symm)
    have : j * f + f ≤ i * f := by
      have := Nat.mul_le_mul_right f (Nat.succ_le_of_lt hji)
      simpa [Nat.succ_mul] using this
    omega

theorem exists_cover_iff {c f m i p : Nat} (_hm : m ≤ f) (hi : i < c) (hp : p < f) :
    (∃ j, j < c ∧ j * f ≤ i * f + p ∧ i * f + p < j * f + m) ↔ p < m := by
  constructor
  · rintro ⟨j, _, h1, h2⟩
    rcases Nat.lt_trichotomy j i with hj | rfl | hj
    · have : j * f + f ≤ i * f := by
        have := Nat.mul_le_mul_right f (Nat.succ_le_of_lt hj)
        simpa [Nat.succ_mul] using this
      omega
    · omega
    · have : i * f + f ≤ j * f := by
        have := Nat.mul_le_mul_right f (Nat.succ_le_of_lt hj)
        simpa [Nat.succ_mul] using this
      omega
  · intro hpm
    exact ⟨i, hi, Nat.le_add_right _ _, by omega⟩

theorem mul_le_of_lt_of_le {i c f len : Nat} (hi : i < c) (hlen : c * f ≤ len) :
    i * f + f ≤ len := by
  have : (i + 1) * f ≤ c * f := Nat.mul_le_mul_right f (Nat.succ_le_of_lt hi)
  calc i * f + f = (i + 1) * f := by ring
    _ ≤ c * f := this
    _ ≤ len := hlen

theorem div_mul_le {len c : Nat} : c * (len / c) ≤ len := by
  calc c * (len / c) = len / c * c := Nat.mul_comm _ _
    _ ≤ len := Nat.div_mul_le_self len c

theorem getElem?_range_map_mul {c f i : Nat} (hi : i < c) :
    ((List.range c).map (fun ch_i => ch_i * f))[i]? = some (i * f) := by
  rw [List.getElem?_map, List.getElem?_range hi]
  rfl

theorem exists_mem_range_map_mul_iff {c f l p : Nat} :
    (∃ off ∈ (List.range c).map (fun ch_i => ch_i * f), off ≤ p ∧ p < off + l) ↔
      (∃ j, j < c ∧ j * f ≤ p ∧ p < j * f + l) := by
  constructor
  · rintro ⟨off, hmem, h1, h2⟩
    obtain ⟨j, hj, rfl⟩ := List.mem_map.mp hmem
    exact ⟨j, List.mem_range.mp hj, h1, h2⟩
  · rintro ⟨j, hj, h1, h2⟩
    exact ⟨j * f, List.mem_map.mpr ⟨j, List.mem_range.mpr hj, rfl⟩, h1, h2⟩

/-- Pointwise effect of `clear_frames` on the flat data: position `i*f + p`
of channel `i` becomes the default value when `p < min k f` and is otherwise
unchanged. -/
theorem foldl_fill_channels_getElem? {T : Type} [Inhabited T]
    {c f k : Nat} {data : List T} (hlen : c * f ≤ data.length)
    {i p : Nat} (hi : i < c) (hp : p < f) :
    (((List.range c).map (fun ch_i => ch_i * f)).foldl
        (fun d off => fillRange d off (min k f) default) data)[i * f + p]? =
      if p < min k f then some (default : T) else data[i * f + p]? := by
  rw [getElem?_foldl_fillRange]
  have hcond := exists_mem_range_map_mul_iff (c := c) (f := f) (l := min k f)
    (p := i * f + p)
  have hiff := exists_cover_iff (c := c) (f := f) (m := min k f) (i := i) (p := p)
    (Nat.min_le_right k f) hi hp
  have hpos : i * f + p < data.length := by
    have := mul_le_of_lt_of_le hi hlen
    omega
  by_cases hpm : p < min k f
  · rw [if_pos (hcond.mpr (hiff.mpr hpm)), if_pos hpos, if_pos hpm]
  · rw [if_neg (fun h => hpm (hiff.mp (hcond.mp h))), if_neg hpm]

theorem length_foldl_fill_channels {T : Type} [Inhabited T]
    (offs : List Nat) (l : Nat) (data : List T) :
    (offs.foldl (fun d off => fillRange d off l (default : T)) data).length =
      data.length :=
  length_foldl_fillRange l default offs data

theorem VarChannelBuffer.new_eq_some {T : Type} [Inhabited T]
    {MAX_CHANNELS channels frames : Nat} {b : VarChannelBuffer T MAX_CHANNELS}
    (h : VarChannelBuffer.new (T := T) MAX_CHANNELS channels frames = some b) :
    b.data = List.replicate (channels * frames) default
    ∧ b.offsets = (List.range channels).map (fun ch_i => ch_i * frames)
    ∧ b.frames = frames := by
  unfold VarChannelBuffer.new at h
  split at h
  · cases h
    exact ⟨rfl, rfl, rfl⟩
  · cases h

/-! ## Claim theorems -/

/-- C3: for every valid channel count and frame count, the
default-initializing constructor `new` (owned fixed-channel `ChannelBuffer`
and owned bounded-variable `VarChannelBuffer`) produces a buffer whose flat
backing region `raw()` has length exactly `channels * frames` and whose every
element equals the sample type's default value. -/
theorem C3_new_default_initialized {T : Type} [Inhabited T]
    (CHANNELS frames MAX_CHANNELS channels : Nat)
    (_hpos : 0 < channels) (hcap : channels ≤ MAX_CHANNELS) :
    ((ChannelBuffer.new (T := T) CHANNELS frames).raw.length = CHANNELS * frames
      ∧ ∀ x ∈ (ChannelBuffer.new (T := T) CHANNELS frames).raw, x = default)
    ∧ ∃ b : VarChannelBuffer T MAX_CHANNELS,
        VarChannelBuffer.new (T := T) MAX_CHANNELS channels frames = some b
        ∧ b.raw.length = channels * frames
        ∧ ∀ x ∈ b.raw, x = default := by
  refine ⟨⟨?_, ?_⟩, ?_⟩
  · simp [ChannelBuffer.new, ChannelBuffer.raw]
  · intro x hx
    exact List.eq_of_mem_replicate hx
  · refine ⟨⟨List.replicate (channels * frames) default,
      (List.range channels).map (fun ch_i => ch_i * frames), frames⟩, ?_, ?_, ?_⟩
    · unfold VarChannelBuffer.new
      rw [if_pos hcap]
    · simp [VarChannelBuffer.raw]
    · intro x hx
      exact List.eq_of_mem_replicate hx

theorem C3_new_default_initialized_witness :
    ((ChannelBuffer.new (T := Int) 2 5).raw.length = 2 * 5
      ∧ ∀ x ∈ (ChannelBuffer.new (T := Int) 2 5).raw, x = default)
    ∧ ∃ b : VarChannelBuffer Int 4,
        VarChannelBuffer.new (T := Int) 4 3 5 = some b
        ∧ b.raw.length = 3 * 5
        ∧ ∀ x ∈ b.raw, x = default :=
  C3_new_default_initialized 2 5 4 3 (by decide) (by decide)

/-- C5 counterexample: the claim `raw().len() = channels() * frames()` for
every reachable buffer fails on a borrowed view: `ChannelBufferRef::<_, 2>::new`
over a 5-element slice keeps the whole slice as `raw()` (length 5) while
`channels() * frames() = 2 * 2 = 4`. -/
theorem C5_counterexample :
    ¬ ((ChannelBufferRef.new (T := Int) 2 [0, 0, 0, 0, 0]).raw.length =
        (ChannelBufferRef.new (T := Int) 2 [0, 0, 0, 0, 0]).channels *
          (ChannelBufferRef.new (T := Int) 2 [0, 0, 0, 0, 0]).frames) := by
  decide

/-- C5 amended: `raw()` returns the entire backing region. Its length is
always at least `channels() * frames()`; it equals `channels() * frames()`
for owned buffers (`ChannelBuffer::new`, `VarChannelBuffer::new`), and for a
borrowed view (`ChannelBufferRef::new`) exactly when the channel count
divides the source slice's length (the view's `raw()` is the full source
slice). -/
theorem C5_raw_length_vs_channels_frames {T : Type} [Inhabited T]
    (CHANNELS frames MAX_CHANNELS channels : Nat) (data : List T) :
    ((ChannelBufferRef.new (T := T) CHANNELS data).raw = data
      ∧ (ChannelBufferRef.new (T := T) CHANNELS data).channels *
          (ChannelBufferRef.new (T := T) CHANNELS data).frames ≤ data.length
      ∧ (CHANNELS ∣ data.length →
          (ChannelBufferRef.new (T := T) CHANNELS data).raw.length =
            (ChannelBufferRef.new (T := T) CHANNELS data).channels *
              (ChannelBufferRef.new (T := T) CHANNELS data).frames))
    ∧ ((ChannelBuffer.new (T := T) CHANNELS frames).raw.length =
        (ChannelBuffer.new (T := T) CHANNELS frames).channels *
          (ChannelBuffer.new (T := T) CHANNELS frames).frames)
    ∧ (∀ b : VarChannelBuffer T MAX_CHANNELS,
        VarChannelBuffer.new (T := T) MAX_CHANNELS channels frames = some b →
        b.raw.length = b.channels * b.frames) := by
  refine ⟨⟨rfl, ?_, ?_⟩, ?_, ?_⟩
  · exact div_mul_le
  · intro hdvd
    show data.length = CHANNELS * (data.length / CHANNELS)
    exact (Nat.mul_div_cancel' hdvd).symm
  · simp [ChannelBuffer.new, ChannelBuffer.raw, ChannelBuffer.channels,
      ChannelBuffer.frames]
  · intro b hb
    obtain ⟨hdata, hoffs, hfr⟩ := VarChannelBuffer.new_eq_some hb
    simp [VarChannelBuffer.raw, VarChannelBuffer.channels, hdata, hoffs, hfr]

theorem C5_raw_length_vs_channels_frames_witness :
    ((ChannelBufferRef.new (T := Int) 2 [0, 0, 0, 0, 0]).raw = [0, 0, 0, 0, 0]
      ∧ (ChannelBufferRef.new (T := Int) 2 [0, 0, 0, 0, 0]).channels *
          (ChannelBufferRef.new (T := Int) 2 [0, 0, 0, 0, 0]).frames ≤
            ([0, 0, 0, 0, 0] : List Int).length
      ∧ (2 ∣ ([0, 0, 0, 0, 0] : List Int).length →
          (ChannelBufferRef.new (T := Int) 2 [0, 0, 0, 0, 0]).raw.length =
            (ChannelBufferRef.new (T := Int) 2 [0, 0, 0, 0, 0]).channels *
              (ChannelBufferRef.new (T := Int) 2 [0, 0, 0, 0, 0]).frames))
    ∧ ((ChannelBuffer.new (T := Int) 2 3).raw.length =
        (ChannelBuffer.new (T := Int) 2 3).channels *
          (ChannelBuffer.new (T := Int) 2 3).frames)
    ∧ (∀ b : VarChannelBuffer Int 4,
        VarChannelBuffer.new (T := Int) 4 3 3 = some b →
        b.raw.length = b.channels * b.frames) :=
  C5_raw_length_vs_channels_frames 2 3 4 3 [0, 0, 0, 0, 0]

/-- C7: the checked accessor `channel(index)` (and `channel_mut(index)`)
returns `Some` exactly when `index < channels`, and `None` otherwise; in
particular `channel(channels)` is `None` and `channel(channels - 1)`
succeeds. Shown for the borrowed fixed-channel buffers and for the owned
bounded-variable buffer. -/
theorem C7_channel_checked_bounds {T : Type} [Inhabited T]
    (CHANNELS MAX_CHANNELS channels frames : Nat) (data : List T)
    (hpos : 0 < CHANNELS) :
    ((∀ i, ((ChannelBufferRef.new (T := T) CHANNELS data).channel i).isSome ↔
        i < CHANNELS)
      ∧ (ChannelBufferRef.new (T := T) CHANNELS data).channel CHANNELS = none
      ∧ ((ChannelBufferRef.new (T := T) CHANNELS data).channel (CHANNELS - 1)).isSome
      ∧ ∀ i, ((ChannelBufferRefMut.new (T := T) CHANNELS data).channel_mut i).isSome ↔
          i < CHANNELS)
    ∧ (∀ b : VarChannelBuffer T MAX_CHANNELS,
        VarChannelBuffer.new (T := T) MAX_CHANNELS channels frames = some b →
        0 < channels →
        (∀ i, (b.channel i).isSome ↔ i < channels)
        ∧ b.channel channels = none
        ∧ (b.channel (channels - 1)).isSome
        ∧ ∀ i, (b.channel_mut i).isSome ↔ i < channels) := by
  constructor
  · refine ⟨?_, ?_, ?_, ?_⟩
    · intro i
      by_cases h : i < CHANNELS <;> simp [ChannelBufferRef.channel, h]
    · simp [ChannelBufferRef.channel]
    · simp [ChannelBufferRef.channel, Nat.sub_lt hpos Nat.one_pos]
    · intro i
      by_cases h : i < CHANNELS <;> simp [ChannelBufferRefMut.channel_mut, h]
  · intro b hb hchpos
    obtain ⟨-, hoffs, -⟩ := VarChannelBuffer.new_eq_some hb
    have hlen : b.offsets.length = channels := by simp [hoffs]
    refine ⟨?_, ?_, ?_, ?_⟩
    · intro i
      by_cases h : i < channels <;> simp [VarChannelBuffer.channel, hlen, h]
    · simp [VarChannelBuffer.channel, hlen]
    · simp [VarChannelBuffer.channel, hlen, Nat.sub_lt hchpos Nat.one_pos]
    · intro i
      by_cases h : i < channels <;> simp [VarChannelBuffer.channel_mut, hlen, h]

theorem C7_channel_checked_bounds_witness :
    0 < 2
    ∧ (((∀ i, ((ChannelBufferRef.new (T := Int) 2 [1, 2, 3, 4]).channel i).isSome ↔
          i < 2)
        ∧ (ChannelBufferRef.new (T := Int) 2 [1, 2, 3, 4]).channel 2 = none
        ∧ ((ChannelBufferRef.new (T := Int) 2 [1, 2, 3, 4]).channel (2 - 1)).isSome
        ∧ ∀ i, ((ChannelBufferRefMut.new (T := Int) 2 [1, 2, 3, 4]).channel_mut i).isSome ↔
            i < 2)
      ∧ (∀ b : VarChannelBuffer Int 4,
          VarChannelBuffer.new (T := Int) 4 3 2 = some b →
          0 < 3 →
          (∀ i, (b.channel i).isSome ↔ i < 3)
          ∧ b.channel 3 = none
          ∧ (b.channel (3 - 1)).isSome
          ∧ ∀ i, (b.channel_mut i).isSome ↔ i < 3)) :=
  ⟨by decide, C7_channel_checked_bounds 2 4 3 2 [1, 2, 3, 4] (by decide)⟩

/-- C10: the bracket indexing operator (`Index`/`IndexMut`) is
`self.channel(index).unwrap()`: it panics (modelled by `none`) exactly when
`index >= channels`, and for `index < channels` it returns the same slice as
the checked accessor `channel(index)`. -/
theorem C10_index_op_unwraps_channel {T : Type} [Inhabited T]
    (CHANNELS MAX_CHANNELS channels frames : Nat) (data : List T) :
    (∀ i, ((ChannelBufferRef.new (T := T) CHANNELS data).indexOp i = none ↔
        CHANNELS ≤ i)
      ∧ (i < CHANNELS →
          (ChannelBufferRef.new (T := T) CHANNELS data).indexOp i =
            some (sliceOf data (i * (data.length / CHANNELS))
              (data.length / CHANNELS))))
    ∧ (∀ i, ((ChannelBufferRefMut.new (T := T) CHANNELS data).indexOp i = none ↔
        CHANNELS ≤ i)
      ∧ (i < CHANNELS →
          (ChannelBufferRefMut.new (T := T) CHANNELS data).indexOp i =
            (ChannelBufferRefMut.new (T := T) CHANNELS data).channel i))
    ∧ (∀ b : VarChannelBuffer T MAX_CHANNELS,
        VarChannelBuffer.new (T := T) MAX_CHANNELS channels frames = some b →
        ∀ i, (b.indexOp i = none ↔ channels ≤ i)
          ∧ (i < channels → b.indexOp i = b.channel i)) := by
  refine ⟨?_, ?_, ?_⟩
  · intro i
    constructor
    · by_cases h : i < CHANNELS <;>
        simp [ChannelBufferRef.indexOp, ChannelBufferRef.channel, h, Nat.le_of_not_lt,
          Nat.not_lt.mpr, Nat.not_lt]
    · intro h
      simp [ChannelBufferRef.indexOp, ChannelBufferRef.channel, h,
        ChannelBufferRef.channel_unchecked, ChannelBufferRef.new,
        getD_range_map_mul h]
  · intro i
    constructor
    · by_cases h : i < CHANNELS <;>
        simp [ChannelBufferRefMut.indexOp, ChannelBufferRefMut.channel, h, Nat.not_lt] <;>
        omega
    · intro _
      rfl
  · intro b hb i
    obtain ⟨-, hoffs, -⟩ := VarChannelBuffer.new_eq_some hb
    have hlen : b.offsets.length = channels := by simp [hoffs]
    constructor
    · by_cases h : i < channels <;>
        simp [VarChannelBuffer.indexOp, VarChannelBuffer.channel, hlen, h, Nat.not_lt] <;>
        omega
    · intro _
      rfl

theorem C10_index_op_unwraps_channel_witness :
    (∀ i, ((ChannelBufferRef.new (T := Int) 2 [1, 2, 3, 4]).indexOp i = none ↔
        2 ≤ i)
      ∧ (i < 2 →
          (ChannelBufferRef.new (T := Int) 2 [1, 2, 3, 4]).indexOp i =
            some (sliceOf [1, 2, 3, 4] (i * (([1, 2, 3, 4] : List Int).length / 2))
              (([1, 2, 3, 4] : List Int).length / 2))))
    ∧ (∀ i, ((ChannelBufferRefMut.new (T := Int) 2 [1, 2, 3, 4]).indexOp i = none ↔
        2 ≤ i)
      ∧ (i < 2 →
          (ChannelBufferRefMut.new (T := Int) 2 [1, 2, 3, 4]).indexOp i =
            (ChannelBufferRefMut.new (T := Int) 2 [1, 2, 3, 4]).channel i))
    ∧ (∀ b : VarChannelBuffer Int 4,
        VarChannelBuffer.new (T := Int) 4 3 2 = some b →
        ∀ i, (b.indexOp i = none ↔ 3 ≤ i)
          ∧ (i < 3 → b.indexOp i = b.channel i)) :=
  C10_index_op_unwraps_channel 2 4 3 2 [1, 2, 3, 4]

/-- C2: `channel(i)` returns exactly the sub-slice
`raw()[i*frames .. (i+1)*frames]` of the flat backing region (planar,
channel-major layout), of length `frames`; and the concrete scenario: a fixed
2-channel 4-frame owned buffer written with `[1,2,3,4]` in channel 0 and
`[5,6,7,8]` in channel 1 through the mutable accessor has
`as_slices() = ([1,2,3,4],[5,6,7,8])` and `raw() = [1,2,3,4,5,6,7,8]`. -/
theorem C2_channel_planar_layout {T : Type} [Inhabited T]
    (CHANNELS : Nat) (data : List T) (i : Nat) (hi : i < CHANNELS) :
    ((ChannelBufferRef.new (T := T) CHANNELS data).channel i =
        some (sliceOf (ChannelBufferRef.new (T := T) CHANNELS data).raw
          (i * (ChannelBufferRef.new (T := T) CHANNELS data).frames)
          (ChannelBufferRef.new (T := T) CHANNELS data).frames)
      ∧ (sliceOf (ChannelBufferRef.new (T := T) CHANNELS data).raw
          (i * (ChannelBufferRef.new (T := T) CHANNELS data).frames)
          (ChannelBufferRef.new (T := T) CHANNELS data).frames).length =
          (ChannelBufferRef.new (T := T) CHANNELS data).frames)
    ∧ ((((ChannelBuffer.new (T := Int) 2 4).writeChannel 0 [1, 2, 3, 4]).writeChannel
          1 [5, 6, 7, 8]).as_slices = [[1, 2, 3, 4], [5, 6, 7, 8]]
      ∧ (((ChannelBuffer.new (T := Int) 2 4).writeChannel 0 [1, 2, 3, 4]).writeChannel
          1 [5, 6, 7, 8]).raw = [1, 2, 3, 4, 5, 6, 7, 8]) := by
  refine ⟨⟨?_, ?_⟩, by decide, by decide⟩
  · simp only [ChannelBufferRef.channel, ChannelBufferRef.channel_unchecked,
      ChannelBufferRef.raw, ChannelBufferRef.new, if_pos hi]
    rw [getD_range_map_mul hi]
  · exact length_sliceOf_of_le (mul_le_of_lt_of_le hi div_mul_le)

theorem C2_channel_planar_layout_witness :
    0 < 2
    ∧ (((ChannelBufferRef.new (T := Int) 2 [1, 2, 3, 4, 5, 6]).channel 0 =
        some (sliceOf (ChannelBufferRef.new (T := Int) 2 [1, 2, 3, 4, 5, 6]).raw
          (0 * (ChannelBufferRef.new (T := Int) 2 [1, 2, 3, 4, 5, 6]).frames)
          (ChannelBufferRef.new (T := Int) 2 [1, 2, 3, 4, 5, 6]).frames)
      ∧ (sliceOf (ChannelBufferRef.new (T := Int) 2 [1, 2, 3, 4, 5, 6]).raw
          (0 * (ChannelBufferRef.new (T := Int) 2 [1, 2, 3, 4, 5, 6]).frames)
          (ChannelBufferRef.new (T := Int) 2 [1, 2, 3, 4, 5, 6]).frames).length =
          (ChannelBufferRef.new (T := Int) 2 [1, 2, 3, 4, 5, 6]).frames)
    ∧ ((((ChannelBuffer.new (T := Int) 2 4).writeChannel 0 [1, 2, 3, 4]).writeChannel
          1 [5, 6, 7, 8]).as_slices = [[1, 2, 3, 4], [5, 6, 7, 8]]
      ∧ (((ChannelBuffer.new (T := Int) 2 4).writeChannel 0 [1, 2, 3, 4]).writeChannel
          1 [5, 6, 7, 8]).raw = [1, 2, 3, 4, 5, 6, 7, 8])) :=
  ⟨by decide, C2_channel_planar_layout 2 [1, 2, 3, 4, 5, 6] 0 (by decide)⟩

/-- C1: the all-channels accessors (`as_slices` / `as_mut_slices`) of every
embedded buffer family return exactly `channels` slices; slice `i` is drawn
from the index range `[i*frames, (i+1)*frames)` of the flat region, and these
per-channel ranges (`chanRange frames i`) are pairwise non-overlapping. -/
theorem C1_all_channels_slices_disjoint {T : Type} [Inhabited T]
    (CHANNELS MAX_CHANNELS channels frames : Nat) (data : List T) :
    ((ChannelBufferRef.new (T := T) CHANNELS data).as_slices.length = CHANNELS
      ∧ ∀ i, i < CHANNELS →
          (ChannelBufferRef.new (T := T) CHANNELS data).as_slices[i]? =
            some (sliceOf data (i * (data.length / CHANNELS))
              (data.length / CHANNELS)))
    ∧ ((ChannelBufferRefMut.new (T := T) CHANNELS data).as_mut_slices.length = CHANNELS
      ∧ ∀ i, i < CHANNELS →
          (ChannelBufferRefMut.new (T := T) CHANNELS data).as_mut_slices[i]? =
            some (sliceOf data (i * (data.length / CHANNELS))
              (data.length / CHANNELS)))
    ∧ ((ChannelBuffer.new (T := T) CHANNELS frames).as_mut_slices.length = CHANNELS
      ∧ ∀ i, i < CHANNELS →
          (ChannelBuffer.new (T := T) CHANNELS frames).as_mut_slices[i]? =
            some (sliceOf (ChannelBuffer.new (T := T) CHANNELS frames).raw
              (i * frames) frames))
    ∧ (∀ b : VarChannelBuffer T MAX_CHANNELS,
        VarChannelBuffer.new (T := T) MAX_CHANNELS channels frames = some b →
        b.as_mut_slices.length = channels
        ∧ ∀ i, i < channels →
            b.as_mut_slices[i]? = some (sliceOf b.raw (i * frames) frames))
    ∧ (∀ f i j k : Nat, i ≠ j → ¬(chanRange f i k ∧ chanRange f j k)) := by
  refine ⟨⟨?_, ?_⟩, ⟨?_, ?_⟩, ⟨?_, ?_⟩, ?_, ?_⟩
  · simp [ChannelBufferRef.as_slices]
  · intro i hi
    simp [ChannelBufferRef.as_slices, ChannelBufferRef.new, List.getElem?_range hi,
      getD_range_map_mul hi]
  · simp [ChannelBufferRefMut.as_mut_slices]
  · intro i hi
    simp [ChannelBufferRefMut.as_mut_slices, ChannelBufferRefMut.new,
      List.getElem?_range hi, getD_range_map_mul hi]
  · simp [ChannelBuffer.as_mut_slices]
  · intro i hi
    simp [ChannelBuffer.as_mut_slices, ChannelBuffer.new, ChannelBuffer.raw,
      List.getElem?_range hi, getD_range_map_mul hi]
  · intro b hb
    obtain ⟨hdata, hoffs, hfr⟩ := VarChannelBuffer.new_eq_some hb
    constructor
    · simp [VarChannelBuffer.as_mut_slices, hoffs]
    · intro i hi
      simp [VarChannelBuffer.as_mut_slices, VarChannelBuffer.raw, hoffs, hfr,
        List.getElem?_range hi]
  · exact fun f i j k hij => chanRange_disjoint hij

theorem C1_all_channels_slices_disjoint_witness :
    ((ChannelBufferRef.new (T := Int) 2 [1, 2, 3, 4, 5, 6]).as_slices.length = 2
      ∧ ∀ i, i < 2 →
          (ChannelBufferRef.new (T := Int) 2 [1, 2, 3, 4, 5, 6]).as_slices[i]? =
            some (sliceOf [1, 2, 3, 4, 5, 6]
              (i * (([1, 2, 3, 4, 5, 6] : List Int).length / 2))
              (([1, 2, 3, 4, 5, 6] : List Int).length / 2)))
    ∧ ((ChannelBufferRefMut.new (T := Int) 2 [1, 2, 3, 4, 5, 6]).as_mut_slices.length = 2
      ∧ ∀ i, i < 2 →
          (ChannelBufferRefMut.new (T := Int) 2 [1, 2, 3, 4, 5, 6]).as_mut_slices[i]? =
            some (sliceOf [1, 2, 3, 4, 5, 6]
              (i * (([1, 2, 3, 4, 5, 6] : List Int).length / 2))
              (([1, 2, 3, 4, 5, 6] : List Int).length / 2)))
    ∧ ((ChannelBuffer.new (T := Int) 2 4).as_mut_slices.length = 2
      ∧ ∀ i, i < 2 →
          (ChannelBuffer.new (T := Int) 2 4).as_mut_slices[i]? =
            some (sliceOf (ChannelBuffer.new (T := Int) 2 4).raw (i * 4) 4))
    ∧ (∀ b : VarChannelBuffer Int 4,
        VarChannelBuffer.new (T := Int) 4 3 4 = some b →
        b.as_mut_slices.length = 3
        ∧ ∀ i, i < 3 →
            b.as_mut_slices[i]? = some (sliceOf b.raw (i * 4) 4))
    ∧ (∀ f i j k : Nat, i ≠ j → ¬(chanRange f i k ∧ chanRange f j k)) :=
  C1_all_channels_slices_disjoint 2 4 3 4 [1, 2, 3, 4, 5, 6]

theorem ChannelBufferRef.ref_as_slices_with_range_eq_some {T : Type} {c : Nat}
    (b : ChannelBufferRef T c) {a bb : Nat}
    (h : min a b.frames ≤ min bb b.frames) :
    b.as_slices_with_range a bb =
      some ((List.range c).map (fun ch_i =>
        sliceOf b.data (b.offsets.getD ch_i 0 + min a b.frames)
          (min bb b.frames - min a b.frames))) := by
  simp only [ChannelBufferRef.as_slices_with_range, usizeSub]
  rw [if_pos h]

theorem VarChannelBuffer.var_as_slices_with_range_eq_some {T : Type} {mx : Nat}
    (b : VarChannelBuffer T mx) {a bb : Nat}
    (h : min a b.frames ≤ min bb b.frames) :
    b.as_slices_with_range a bb =
      some (b.offsets.map (fun off =>
        sliceOf b.data (off + min a b.frames)
          (min bb b.frames - min a b.frames))) := by
  simp only [VarChannelBuffer.as_slices_with_range, usizeSub]
  rw [if_pos h]

/-- C4 counterexample: the claim that `as_slices_with_range(a..b)` never
errors fails for an inverted range: on a 1-channel 1-frame borrowed buffer,
`as_slices_with_range(1..0)` computes `range.end.min(frames) - start_frame =
0 - 1`, a `usize` subtraction underflow (panic in debug builds), modelled by
`none`. -/
theorem C4_counterexample :
    (ChannelBufferRef.new (T := Int) 1 [0]).as_slices_with_range 1 0 = none := by
  decide

/-- C4 amended: `as_slices_with_length(n)` returns `channels` slices each of
length `min(n, frames)`; and for every range `a..b` with `a ≤ b`,
`as_slices_with_range(a..b)` does not error and returns `channels` slices
each of length `min(b, frames) - min(a, frames)`, which is zero when
`a ≥ frames`. (For inverted ranges with `min(a, frames) > min(b, frames)`
the `usize` subtraction underflows — see the counterexample.) -/
theorem C4_clamped_partial_requests {T : Type} [Inhabited T]
    (CHANNELS MAX_CHANNELS channels frames : Nat) (data : List T) :
    (∀ n,
        ((ChannelBufferRef.new (T := T) CHANNELS data).as_slices_with_length n).length =
          CHANNELS
        ∧ ∀ i, i < CHANNELS → ∃ s,
            ((ChannelBufferRef.new (T := T) CHANNELS data).as_slices_with_length n)[i]? =
              some s
            ∧ s.length = min n (data.length / CHANNELS))
    ∧ (∀ a bb, a ≤ bb → ∃ out,
        (ChannelBufferRef.new (T := T) CHANNELS data).as_slices_with_range a bb =
          some out
        ∧ out.length = CHANNELS
        ∧ ∀ i, i < CHANNELS → ∃ s, out[i]? = some s
            ∧ s.length =
                min bb (data.length / CHANNELS) - min a (data.length / CHANNELS)
            ∧ (data.length / CHANNELS ≤ a → s.length = 0))
    ∧ (∀ b : VarChannelBuffer T MAX_CHANNELS,
        VarChannelBuffer.new (T := T) MAX_CHANNELS channels frames = some b →
        (∀ n,
            (b.as_slices_with_length n).length = channels
            ∧ ∀ i, i < channels → ∃ s,
                (b.as_slices_with_length n)[i]? = some s ∧ s.length = min n frames)
        ∧ (∀ a bb, a ≤ bb → ∃ out,
            b.as_slices_with_range a bb = some out
            ∧ out.length = channels
            ∧ ∀ i, i < channels → ∃ s, out[i]? = some s
                ∧ s.length = min bb frames - min a frames
                ∧ (frames ≤ a → s.length = 0))) := by
  have hlenf : CHANNELS * (data.length / CHANNELS) ≤ data.length := div_mul_le
  refine ⟨?_, ?_, ?_⟩
  · intro n
    constructor
    · simp [ChannelBufferRef.as_slices_with_length]
    · intro i hi
      refine ⟨sliceOf data (i * (data.length / CHANNELS))
          (min n (data.length / CHANNELS)), ?_, ?_⟩
      · simp [ChannelBufferRef.as_slices_with_length, ChannelBufferRef.new,
          List.getElem?_range hi, getD_range_map_mul hi]
      · apply length_sliceOf_of_le
        have h1 := mul_le_of_lt_of_le hi hlenf
        omega
  · intro a bb hab
    have hmm : min a (data.length / CHANNELS) ≤ min bb (data.length / CHANNELS) := by
      omega
    refine ⟨_, ChannelBufferRef.ref_as_slices_with_range_eq_some _ hmm, ?_, ?_⟩
    · simp
    · intro i hi
      refine ⟨sliceOf data
          (i * (data.length / CHANNELS) + min a (data.length / CHANNELS))
          (min bb (data.length / CHANNELS) - min a (data.length / CHANNELS)),
          ?_, ?_, ?_⟩
      · simp [ChannelBufferRef.new, List.getElem?_range hi, getD_range_map_mul hi]
      · apply length_sliceOf_of_le
        have h1 := mul_le_of_lt_of_le hi hlenf
        omega
      · intro hfa
        rw [length_sliceOf_of_le (by have h1 := mul_le_of_lt_of_le hi hlenf; omega)]
        omega
  · intro b hb
    obtain ⟨hdata, hoffs, hfr⟩ := VarChannelBuffer.new_eq_some hb
    have hdlen : b.data.length = channels * frames := by rw [hdata]; simp
    constructor
    · intro n
      constructor
      · simp [VarChannelBuffer.as_slices_with_length, hoffs]
      · intro i hi
        refine ⟨sliceOf b.data (i * frames) (min n frames), ?_, ?_⟩
        · simp [VarChannelBuffer.as_slices_with_length, hoffs, hfr,
            List.getElem?_range hi]
        · apply length_sliceOf_of_le
          have h1 := mul_le_of_lt_of_le hi (Nat.le_refl (channels * frames))
          omega
    · intro a bb hab
      have hmm : min a b.frames ≤ min bb b.frames := by omega
      refine ⟨_, VarChannelBuffer.var_as_slices_with_range_eq_some _ hmm, ?_, ?_⟩
      · simp [hoffs]
      · intro i hi
        refine ⟨sliceOf b.data (i * frames + min a frames)
            (min bb frames - min a frames), ?_, ?_, ?_⟩
        · simp [hoffs, hfr, List.getElem?_range hi]
        · apply length_sliceOf_of_le
          have h1 := mul_le_of_lt_of_le hi (Nat.le_refl (channels * frames))
          omega
        · intro hfa
          rw [length_sliceOf_of_le
            (by have h1 := mul_le_of_lt_of_le hi (Nat.le_refl (channels * frames)); omega)]
          omega

theorem C4_clamped_partial_requests_witness :
    1 ≤ 2
    ∧ ((∀ n,
        ((ChannelBufferRef.new (T := Int) 2 [1, 2, 3, 4]).as_slices_with_length n).length =
          2
        ∧ ∀ i, i < 2 → ∃ s,
            ((ChannelBufferRef.new (T := Int) 2 [1, 2, 3, 4]).as_slices_with_length n)[i]? =
              some s
            ∧ s.length = min n (([1, 2, 3, 4] : List Int).length / 2))
    ∧ (∀ a bb, a ≤ bb → ∃ out,
        (ChannelBufferRef.new (T := Int) 2 [1, 2, 3, 4]).as_slices_with_range a bb =
          some out
        ∧ out.length = 2
        ∧ ∀ i, i < 2 → ∃ s, out[i]? = some s
            ∧ s.length =
                min bb (([1, 2, 3, 4] : List Int).length / 2) -
                  min a (([1, 2, 3, 4] : List Int).length / 2)
            ∧ (([1, 2, 3, 4] : List Int).length / 2 ≤ a → s.length = 0))
    ∧ (∀ b : VarChannelBuffer Int 4,
        VarChannelBuffer.new (T := Int) 4 3 2 = some b →
        (∀ n,
            (b.as_slices_with_length n).length = 3
            ∧ ∀ i, i < 3 → ∃ s,
                (b.as_slices_with_length n)[i]? = some s ∧ s.length = min n 2)
        ∧ (∀ a bb, a ≤ bb → ∃ out,
            b.as_slices_with_range a bb = some out
            ∧ out.length = 3
            ∧ ∀ i, i < 3 → ∃ s, out[i]? = some s
                ∧ s.length = min bb 2 - min a 2
                ∧ (2 ≤ a → s.length = 0)))) :=
  ⟨by decide, C4_clamped_partial_requests 2 4 3 2 [1, 2, 3, 4]⟩

/-- Pointwise view of `Vec::resize(newlen, default)` (truncate on shrink,
append default elements on grow). -/
theorem getElem?_resize {T : Type} [Inhabited T] (d : List T) (newlen p : Nat) :
    (d.take newlen ++ List.replicate (newlen - d.length) (default : T))[p]? =
      if p < min newlen d.length then d[p]?
      else if p < newlen then some (default : T)
      else none := by
  rw [List.getElem?_append, List.length_take]
  by_cases h1 : p < min newlen d.length
  · rw [if_pos h1, if_pos h1, List.getElem?_take, if_pos (by omega)]
  · rw [if_neg h1, if_neg h1, List.getElem?_replicate]
    by_cases h2 : p < newlen
    · rw [if_pos (by omega), if_pos h2]
    · rw [if_neg (by omega), if_neg h2]

theorem length_resize {T : Type} [Inhabited T] (d : List T) (newlen : Nat) :
    (d.take newlen ++ List.replicate (newlen - d.length) (default : T)).length =
      newlen := by
  simp only [List.length_append, List.length_take, List.length_replicate]
  omega

/-- C8: after `clear()` every element of `raw()` equals the default value;
after `clear_frames(k)` the first `min(k, frames)` elements of each channel
are default and every later element of each channel is unchanged. Includes
the spec scenario: seeding a 2-channel 4-frame buffer with non-default data
and calling `clear_frames(2)` defaults elements 0–1 of each channel and
keeps elements 2–3. -/
theorem C8_clear_and_clear_frames {T : Type} [Inhabited T]
    (CHANNELS frames k : Nat) (data : List T) :
    ((ChannelBufferRefMut.new (T := T) CHANNELS data).clear.raw =
        List.replicate data.length default)
    ∧ ((ChannelBuffer.new (T := T) CHANNELS frames).clear.raw =
        List.replicate (CHANNELS * frames) default)
    ∧ (∀ i, i < CHANNELS → ∃ ch ch',
        (ChannelBufferRefMut.new (T := T) CHANNELS data).channel i = some ch
        ∧ ((ChannelBufferRefMut.new (T := T) CHANNELS data).clear_frames k).channel i =
            some ch'
        ∧ ∀ p, p < data.length / CHANNELS →
            ch'[p]? = if p < min k (data.length / CHANNELS) then some (default : T)
                      else ch[p]?)
    ∧ (∀ i, i < CHANNELS → ∃ ch ch',
        (ChannelBuffer.new (T := T) CHANNELS frames).channel i = some ch
        ∧ ((ChannelBuffer.new (T := T) CHANNELS frames).clear_frames k).channel i =
            some ch'
        ∧ ∀ p, p < frames →
            ch'[p]? = if p < min k frames then some (default : T) else ch[p]?)
    ∧ (((ChannelBufferRefMut.new (T := Int) 2 [1, 2, 3, 4, 5, 6, 7, 8]).clear_frames
          2).raw = [0, 0, 3, 4, 0, 0, 7, 8]) := by
  refine ⟨?_, ?_, ?_, ?_, by decide⟩
  · simp [ChannelBufferRefMut.clear, ChannelBufferRefMut.raw, ChannelBufferRefMut.new,
      List.map_const']
  · simp [ChannelBuffer.clear, ChannelBuffer.raw, ChannelBuffer.new, List.map_const']
  · intro i hi
    refine ⟨sliceOf data (i * (data.length / CHANNELS)) (data.length / CHANNELS),
      sliceOf
        (((List.range CHANNELS).map (fun ch_i => ch_i * (data.length / CHANNELS))).foldl
          (fun d off => fillRange d off (min k (data.length / CHANNELS)) default) data)
        (i * (data.length / CHANNELS)) (data.length / CHANNELS), ?_, ?_, ?_⟩
    · simp [ChannelBufferRefMut.channel, ChannelBufferRefMut.channel_unchecked,
        ChannelBufferRefMut.new, hi, getD_range_map_mul hi]
    · simp [ChannelBufferRefMut.channel, ChannelBufferRefMut.channel_unchecked,
        ChannelBufferRefMut.clear_frames, ChannelBufferRefMut.new, hi,
        getD_range_map_mul hi]
    · intro p hp
      rw [getElem?_sliceOf, getElem?_sliceOf, if_pos hp, if_pos hp]
      exact foldl_fill_channels_getElem? div_mul_le hi hp
  · intro i hi
    refine ⟨sliceOf (List.replicate (CHANNELS * frames) (default : T)) (i * frames)
        frames,
      sliceOf
        (((List.range CHANNELS).map (fun ch_i => ch_i * frames)).foldl
          (fun d off => fillRange d off (min k frames) default)
          (List.replicate (CHANNELS * frames) (default : T)))
        (i * frames) frames, ?_, ?_, ?_⟩
    · simp [ChannelBuffer.channel, ChannelBuffer.channel_unchecked,
        ChannelBuffer.new, hi, getD_range_map_mul hi]
    · simp [ChannelBuffer.channel, ChannelBuffer.channel_unchecked,
        ChannelBuffer.clear_frames, ChannelBuffer.new, hi, getD_range_map_mul hi]
    · intro p hp
      rw [getElem?_sliceOf, getElem?_sliceOf, if_pos hp, if_pos hp]
      exact foldl_fill_channels_getElem? (by simp) hi hp

theorem C8_clear_and_clear_frames_witness :
    ((ChannelBufferRefMut.new (T := Int) 2 [9, 9, 9, 9, 9, 9, 9, 9]).clear.raw =
        List.replicate ([9, 9, 9, 9, 9, 9, 9, 9] : List Int).length default)
    ∧ ((ChannelBuffer.new (T := Int) 2 4).clear.raw =
        List.replicate (2 * 4) default)
    ∧ (∀ i, i < 2 → ∃ ch ch',
        (ChannelBufferRefMut.new (T := Int) 2 [9, 9, 9, 9, 9, 9, 9, 9]).channel i =
            some ch
        ∧ ((ChannelBufferRefMut.new (T := Int) 2
              [9, 9, 9, 9, 9, 9, 9, 9]).clear_frames 2).channel i = some ch'
        ∧ ∀ p, p < ([9, 9, 9, 9, 9, 9, 9, 9] : List Int).length / 2 →
            ch'[p]? = if p < min 2 (([9, 9, 9, 9, 9, 9, 9, 9] : List Int).length / 2)
                      then some (default : Int) else ch[p]?)
    ∧ (∀ i, i < 2 → ∃ ch ch',
        (ChannelBuffer.new (T := Int) 2 4).channel i = some ch
        ∧ ((ChannelBuffer.new (T := Int) 2 4).clear_frames 2).channel i = some ch'
        ∧ ∀ p, p < 4 →
            ch'[p]? = if p < min 2 4 then some (default : Int) else ch[p]?)
    ∧ (((ChannelBufferRefMut.new (T := Int) 2 [1, 2, 3, 4, 5, 6, 7, 8]).clear_frames
          2).raw = [0, 0, 3, 4, 0, 0, 7, 8]) :=
  C8_clear_and_clear_frames 2 4 2 [9, 9, 9, 9, 9, 9, 9, 9]

/-- C6: evaluation at the failing input. `new(num_instances = 1, frames = 1)`
with `INSTANCES = 2`, `CHANNELS = 1` allocates only 1 element
(`instance_length * num_instances = 1`), yet `num_instances()` reports the
const-generic `INSTANCES = 2` (the offset table is the fixed-size array
`[[*mut T; CHANNELS]; INSTANCES]`), so `instance(1)` returns `Some` — a view
over block 1's sub-region `[1, 2)`, which lies entirely past the allocation —
where the claim requires `None` for every index `>= num_instances`. -/
theorem C6_instance_failing_input :
    (InstanceChannelBuffer.new (T := Int) 2 1 1 1).raw.length = 1
    ∧ (InstanceChannelBuffer.new (T := Int) 2 1 1 1).num_instances = 2
    ∧ ((InstanceChannelBuffer.new (T := Int) 2 1 1 1).instanceAt 1).isSome = true := by
  decide

/-- C9 (spec-modelled: `set_num_channels` / `set_num_instances` are not in the
provided sources; they are modelled from spec sections 4.4 / 4.5):
`set_num_channels(n)` with `n` equal to the current channel count is a no-op;
with a different `n` in `1..=MAX_CHANNELS` it resizes the flat region to
`n * frames`, preserves the content of retained channels exactly,
default-initializes newly exposed tail elements, and recomputes the offset
table for exactly `n` entries; the analogous contract holds for
`set_num_instances` on the instance buffer. -/
theorem C9_resize_channel_count_contract {T : Type} [Inhabited T]
    (MAX_CHANNELS channels frames n INSTANCES CHANNELS num_instances m : Nat) :
    (∀ b : VarChannelBuffer T MAX_CHANNELS,
        VarChannelBuffer.new (T := T) MAX_CHANNELS channels frames = some b →
        b.set_num_channels b.channels = some b
        ∧ (n ≠ channels → 1 ≤ n → n ≤ MAX_CHANNELS →
            ∃ b', b.set_num_channels n = some b'
              ∧ b'.raw.length = n * frames
              ∧ b'.channels = n
              ∧ (∀ i, i < min n channels → b'.channel i = b.channel i)
              ∧ (∀ p, channels * frames ≤ p → p < n * frames →
                  b'.raw[p]? = some (default : T))))
    ∧ ((InstanceChannelBuffer.new (T := T) INSTANCES CHANNELS num_instances
          frames).set_num_instances
            (InstanceChannelBuffer.new (T := T) INSTANCES CHANNELS num_instances
              frames).num_instances =
        InstanceChannelBuffer.new (T := T) INSTANCES CHANNELS num_instances frames)
    ∧ (m ≠ INSTANCES →
        ∀ b2, b2 = (InstanceChannelBuffer.new (T := T) INSTANCES CHANNELS
            num_instances frames).set_num_instances m →
        b2.raw.length =
            m * (InstanceChannelBuffer.new (T := T) INSTANCES CHANNELS num_instances
              frames).instance_length
        ∧ b2.num_instances = m
        ∧ (∀ p, p < min (m * (frames * CHANNELS))
              (InstanceChannelBuffer.new (T := T) INSTANCES CHANNELS num_instances
                frames).raw.length →
            b2.raw[p]? =
              (InstanceChannelBuffer.new (T := T) INSTANCES CHANNELS num_instances
                frames).raw[p]?)
        ∧ (∀ p, (InstanceChannelBuffer.new (T := T) INSTANCES CHANNELS num_instances
              frames).raw.length ≤ p → p < m * (frames * CHANNELS) →
            b2.raw[p]? = some (default : T))) := by
  refine ⟨?_, ?_, ?_⟩
  · intro b hb
    obtain ⟨hdata, hoffs, hfr⟩ := VarChannelBuffer.new_eq_some hb
    have hbeq : b = ⟨List.replicate (channels * frames) default,
        (List.range channels).map (fun ch_i => ch_i * frames), frames⟩ := by
      cases b
      simp_all
    subst hbeq
    constructor
    · simp [VarChannelBuffer.set_num_channels, VarChannelBuffer.channels]
    · intro hne h1n hnmax
      have hcond : ¬ (n = ((List.range channels).map
          (fun ch_i => ch_i * frames)).length) := by
        simp only [List.length_map, List.length_range]
        exact hne
      have hset : VarChannelBuffer.set_num_channels
          (⟨List.replicate (channels * frames) default,
            (List.range channels).map (fun ch_i => ch_i * frames), frames⟩ :
            VarChannelBuffer T MAX_CHANNELS) n =
          some ⟨List.take (n * frames) (List.replicate (channels * frames) default) ++
              List.replicate (n * frames -
                (List.replicate (channels * frames) (default : T)).length) default,
            (List.range n).map (fun ch_i => ch_i * frames), frames⟩ := by
        unfold VarChannelBuffer.set_num_channels
        rw [if_neg hcond, if_pos ⟨h1n, hnmax⟩]
      refine ⟨_, hset, ?_, ?_, ?_, ?_⟩
      · simp only [VarChannelBuffer.raw]
        exact length_resize _ _
      · simp [VarChannelBuffer.channels]
      · intro i himin
        have hin : i < n := lt_of_lt_of_le himin (Nat.min_le_left _ _)
        have hich : i < channels := lt_of_lt_of_le himin (Nat.min_le_right _ _)
        simp only [VarChannelBuffer.channel, VarChannelBuffer.channel_unchecked,
          List.length_map, List.length_range]
        rw [if_pos hin, if_pos hich, getD_range_map_mul hin, getD_range_map_mul hich]
        congr 1
        apply List.ext_getElem?
        intro q
        rw [getElem?_sliceOf, getElem?_sliceOf]
        by_cases hq : q < frames
        · have hpos : i * frames + q <
              min (n * frames) ((List.replicate (channels * frames) (default : T)).length) := by
            simp only [List.length_replicate]
            have h1 := mul_le_of_lt_of_le hin (Nat.le_refl (n * frames))
            have h2 := mul_le_of_lt_of_le hich (Nat.le_refl (channels * frames))
            omega
          rw [if_pos hq, if_pos hq, getElem?_resize, if_pos hpos]
        · rw [if_neg hq, if_neg hq]
      · intro p hp1 hp2
        have hneg : ¬ (p <
            min (n * frames) ((List.replicate (channels * frames) (default : T)).length)) := by
          simp only [List.length_replicate]
          omega
        simp only [VarChannelBuffer.raw]
        rw [getElem?_resize, if_neg hneg, if_pos hp2]
  · simp [InstanceChannelBuffer.set_num_instances, InstanceChannelBuffer.num_instances]
  · intro hm b2 hb2
    have hcond : ¬ (m = (InstanceChannelBuffer.new (T := T) INSTANCES CHANNELS
        num_instances frames).offsets.length) := by
      simp only [InstanceChannelBuffer.new, List.length_map, List.length_range]
      exact hm
    have hset : (InstanceChannelBuffer.new (T := T) INSTANCES CHANNELS num_instances
          frames).set_num_instances m =
        ⟨List.take (m * (frames * CHANNELS))
            (InstanceChannelBuffer.new (T := T) INSTANCES CHANNELS num_instances
              frames).data
          ++ List.replicate (m * (frames * CHANNELS) -
              (InstanceChannelBuffer.new (T := T) INSTANCES CHANNELS num_instances
                frames).data.length) default,
          (List.range m).map (fun inst_i => (List.range CHANNELS).map
            (fun ch_i => (frames * CHANNELS) * inst_i + frames * ch_i)),
          frames, frames * CHANNELS⟩ := by
      unfold InstanceChannelBuffer.set_num_instances
      rw [if_neg hcond]
      rfl
    rw [hset] at hb2
    subst hb2
    refine ⟨?_, ?_, ?_, ?_⟩
    · simp only [InstanceChannelBuffer.raw]
      exact length_resize _ _
    · simp [InstanceChannelBuffer.num_instances]
    · intro p hp
      simp only [InstanceChannelBuffer.raw] at hp ⊢
      rw [getElem?_resize, if_pos hp]
    · intro p hp1 hp2
      simp only [InstanceChannelBuffer.raw] at hp1 ⊢
      have hneg : ¬ (p < min (m * (frames * CHANNELS))
          (InstanceChannelBuffer.new (T := T) INSTANCES CHANNELS num_instances
            frames).data.length) := by omega
      rw [getElem?_resize, if_neg hneg, if_pos hp2]

theorem C9_resize_channel_count_contract_witness :
    (∀ b : VarChannelBuffer Int 4,
        VarChannelBuffer.new (T := Int) 4 2 3 = some b →
        b.set_num_channels b.channels = some b
        ∧ (3 ≠ 2 → 1 ≤ 3 → 3 ≤ 4 →
            ∃ b', b.set_num_channels 3 = some b'
              ∧ b'.raw.length = 3 * 3
              ∧ b'.channels = 3
              ∧ (∀ i, i < min 3 2 → b'.channel i = b.channel i)
              ∧ (∀ p, 2 * 3 ≤ p → p < 3 * 3 →
                  b'.raw[p]? = some (default : Int))))
    ∧ ((InstanceChannelBuffer.new (T := Int) 2 1 2 3).set_num_instances
          (InstanceChannelBuffer.new (T := Int) 2 1 2 3).num_instances =
        InstanceChannelBuffer.new (T := Int) 2 1 2 3)
    ∧ (3 ≠ 2 →
        ∀ b2, b2 = (InstanceChannelBuffer.new (T := Int) 2 1 2 3).set_num_instances 3 →
        b2.raw.length =
            3 * (InstanceChannelBuffer.new (T := Int) 2 1 2 3).instance_length
        ∧ b2.num_instances = 3
        ∧ (∀ p, p < min (3 * (3 * 1))
              (InstanceChannelBuffer.new (T := Int) 2 1 2 3).raw.length →
            b2.raw[p]? = (InstanceChannelBuffer.new (T := Int) 2 1 2 3).raw[p]?)
        ∧ (∀ p, (InstanceChannelBuffer.new (T := Int) 2 1 2 3).raw.length ≤ p →
            p < 3 * (3 * 1) →
            b2.raw[p]? = some (default : Int))) :=
  C9_resize_channel_count_contract 4 2 3 3 2 1 2 3

end AudioChannelBuffer
